import Mathlib

/-!
Shallow embedding of the PipeWire graph bridge
(`src/src/pipewire_wrapper.rs`, `src/src/channel.rs`,
`src/pipewire/src/link.rs` and the vendored `pipewire-rs` registry types),
together with proofs about the mirror queries, the timer-callback command
drain, and the link-state decoder.
-/

namespace PwGraph

/-! ### Property dictionaries and object kinds -/

/-- Well-known PipeWire property keys. The `pipewire::keys` module is part of
the vendored client library whose source file is not in this tree; the values
below are the standard PipeWire key strings (the spec itself quotes
"node.id" and "port.direction"). -/
def NODE_ID : String := "node.id"

def LINK_OUTPUT_NODE : String := "link.output.node"

def LINK_OUTPUT_PORT : String := "link.output.port"

def LINK_INPUT_NODE : String := "link.input.node"

def LINK_INPUT_PORT : String := "link.input.port"

def OBJECT_LINGER : String := "object.linger"

def FACTORY_TYPE_NAME : String := "factory.type.name"

def FACTORY_NAME : String := "factory.name"

def PORT_DIRECTION : String := "port.direction"

/-- Rust `pipewire::types::ObjectType` (vendored library). Only the variants the
bridge distinguishes matter; `Other` carries the raw type string. -/
inductive ObjectType where
  | Node
  | Port
  | Link
  | Factory
  | Client
  | Device
  | Module
  | Core
  | Metadata
  | Other (s : String)
deriving DecidableEq, Repr

/-- Method `ObjectType::to_str`: the protocol type identifier
(cf. the `set_object_type` test in `registry.rs`:
`ObjectType::Client.to_str() == "PipeWire:Interface:Client"`). -/
def ObjectType.to_str : ObjectType → String
  | .Node => "PipeWire:Interface:Node"
  | .Port => "PipeWire:Interface:Port"
  | .Link => "PipeWire:Interface:Link"
  | .Factory => "PipeWire:Interface:Factory"
  | .Client => "PipeWire:Interface:Client"
  | .Device => "PipeWire:Interface:Device"
  | .Module => "PipeWire:Interface:Module"
  | .Core => "PipeWire:Interface:Core"
  | .Metadata => "PipeWire:Interface:Metadata"
  | .Other s => s

/-- Rust `pipewire::Properties`: an ordered string→string dictionary.
`iter()` yields the pairs in order; `get(k)` returns the value of the first
entry whose key is `k`. -/
structure Properties where
  entries : List (String × String)
deriving DecidableEq, Repr

/-- Method `Properties::get` (spa dict lookup: first entry with the given key). -/
def Properties.get (p : Properties) (k : String) : Option String :=
  (p.entries.find? (fun kv => kv.1 == k)).map (fun kv => kv.2)

/-- Rust `GlobalObject<Properties>` from `registry.rs`: a daemon-advertised
object as stored in the mirror. -/
structure GlobalObject where
  id : Nat
  permissions : Nat
  type_ : ObjectType
  version : Nat
  props : Option Properties
deriving DecidableEq, Repr

/-! ### The registry mirror (`PipewireState`)

`global_objects` is a `BTreeMap<u32, GlobalObject<Properties>>`; we model it
as an association list strictly sorted by key in ascending order, which is
exactly the order `BTreeMap::values()` iterates in. -/

/-- Struct `PipewireState` from `pipewire_wrapper.rs`. -/
structure PipewireState where
  error : Bool := false
  core_info : Option String := none
  global_objects : List (Nat × GlobalObject) := []
deriving Repr

/-- The `BTreeMap` representation invariant: keys strictly ascending (hence
duplicate-free). -/
def SortedKeys (m : List (Nat × GlobalObject)) : Prop :=
  m.Pairwise (fun a b => a.1 < b.1)

instance : DecidablePred SortedKeys := fun m =>
  inferInstanceAs (Decidable (List.Pairwise _ m))

/-- Model of `BTreeMap::insert`, keeping the list sorted by key. -/
def btreeInsert (m : List (Nat × GlobalObject)) (k : Nat) (v : GlobalObject) :
    List (Nat × GlobalObject) :=
  match m with
  | [] => [(k, v)]
  | (k', v') :: rest =>
    if k < k' then (k, v) :: (k', v') :: rest
    else if k = k' then (k, v) :: rest
    else (k', v') :: btreeInsert rest k v

/-- Model of `BTreeMap::remove` (returns the map; a missing key is a no-op). -/
def btreeRemove (m : List (Nat × GlobalObject)) (k : Nat) :
    List (Nat × GlobalObject) :=
  match m with
  | [] => []
  | (k', v') :: rest =>
    if k = k' then rest else (k', v') :: btreeRemove rest k

/-- Model of `BTreeMap::values()`: the objects in ascending id order. -/
def PipewireState.values (s : PipewireState) : List GlobalObject :=
  s.global_objects.map Prod.snd

/-! ### Mirror queries (`impl PipewireState`) -/

/-- The per-object step of `get_factory_name`'s `flat_map` closure: each `?`
operator in the Rust closure is one of these early-return matches. -/
def factoryEntry (t : ObjectType) (o : GlobalObject) : Option String :=
  match o.props with
  | none => none
  | some props =>
    match props.get FACTORY_TYPE_NAME with
    | none => none
    | some factory_type_name =>
      match props.get FACTORY_NAME with
      | none => none
      | some factory_name =>
        if factory_type_name == t.to_str then some factory_name else none

/-- Method `PipewireState::get_factory_name`: scan Factory objects in ascending id
order, keep those whose props declare both a factory type name and a factory
name with the type name equal to `object_type.to_str()`, return the first
factory name. -/
def PipewireState.get_factory_name (s : PipewireState)
    (object_type : ObjectType) : Option String :=
  ((s.values.filter (fun object => object.type_ == ObjectType.Factory)).filterMap
    (factoryEntry object_type)).head?

/-- Method `PipewireState::find_object_by_props`: first object (ascending id order)
that has props satisfying the predicate. -/
def PipewireState.find_object_by_props (s : PipewireState)
    (f : Properties → Bool) : Option GlobalObject :=
  (s.values.filter (fun object =>
    match object.props with
    | some props => f props
    | none => false)).head?

/-- Method `PipewireState::find_object_by_prop`: first object whose props contain the
exact key/value pair. -/
def PipewireState.find_object_by_prop (s : PipewireState) (k v : String) :
    Option GlobalObject :=
  s.find_object_by_props (fun props =>
    (props.entries.find? (fun kv => kv == (k, v))).isSome)

/-! ### Commands and the timer-callback drain loop

`ChannelMessage` (from `channel.rs`) restricted to the variants the timer
callback matches on; the catch-all `_ => {}` arm is represented by `OtherMsg`.
The timer callback (`pipewire_wrapper.rs:98-170`) locks the mirror once, then
drains `pw_receiver` with `try_recv` until empty, executing each message to
completion; the effects it can perform on the outside world are modelled as
an explicit trace. An `unwrap()` on `None` is a Rust panic and is modelled by
`Except.error`, which aborts the rest of the drain. -/

/-- Channel messages (UI to bridge) handled by the timer callback. -/
inductive ChannelMessage where
  | PipewireMainLoopStopRequest
  | LinkCreate (fromDesc toDesc : String × String)
  | LinkDestroy (fromDesc toDesc : String × String)
  | OtherMsg
deriving DecidableEq, Repr

/-- Externally visible actions of the timer callback, in program order. -/
inductive Effect where
  | lockAcquire
  | lockRelease
  | quitMainLoop
  | createObject (factory_name : String) (properties : Properties)
  | destroyGlobal (id : Nat)
  | logError (msg : String)
deriving DecidableEq, Repr

/-- The `properties` closure of the `LinkCreate` arm
(`pipewire_wrapper.rs:107-124`): resolve both endpoint descriptors against
the mirror, read the owning node id from each port's props, use each object's
own id as the port id, and build the wire property set (plus the linger
property). -/
def linkCreateProperties (s : PipewireState)
    (fromDesc toDesc : String × String) : Option Properties := do
  let object_from ← s.find_object_by_prop fromDesc.1 fromDesc.2
  let object_to ← s.find_object_by_prop toDesc.1 toDesc.2
  let object_from_props ← object_from.props
  let object_to_props ← object_to.props
  let output_node ← object_from_props.get NODE_ID
  let output_port := toString object_from.id
  let input_node ← object_to_props.get NODE_ID
  let input_port := toString object_to.id
  some ⟨[(LINK_OUTPUT_NODE, output_node),
         (LINK_OUTPUT_PORT, output_port),
         (LINK_INPUT_NODE, input_node),
         (LINK_INPUT_PORT, input_port),
         (OBJECT_LINGER, "1")]⟩

/-- The `object_id` closure of the `LinkDestroy` arm
(`pipewire_wrapper.rs:142-159`): derive the same four properties, then scan
the mirror for an object whose props match all four exactly. -/
def linkDestroyObjectId (s : PipewireState)
    (fromDesc toDesc : String × String) : Option Nat := do
  let object_from ← s.find_object_by_prop fromDesc.1 fromDesc.2
  let object_to ← s.find_object_by_prop toDesc.1 toDesc.2
  let object_from_props ← object_from.props
  let object_to_props ← object_to.props
  let output_node ← object_from_props.get NODE_ID
  let output_port := toString object_from.id
  let input_node ← object_to_props.get NODE_ID
  let input_port := toString object_to.id
  let object ← s.find_object_by_props (fun props =>
    props.get LINK_OUTPUT_NODE == some output_node &&
    props.get LINK_OUTPUT_PORT == some output_port &&
    props.get LINK_INPUT_NODE == some input_node &&
    props.get LINK_INPUT_PORT == some input_port)
  some object.id

/-- One iteration of the drain loop: the effects of executing one message to
completion against the (locked, unchanging) mirror `s`. `Except.error`
models a Rust panic, naming the unwrap that fired. -/
def processMessage (s : PipewireState) (m : ChannelMessage) :
    Except String (List Effect) :=
  match m with
  | .PipewireMainLoopStopRequest => .ok [.quitMainLoop]
  | .LinkCreate fromDesc toDesc =>
    match linkCreateProperties s fromDesc toDesc with
    | some properties =>
      match s.get_factory_name ObjectType.Link with
      | some factory_name => .ok [.createObject factory_name properties]
      | none => .error "get_factory_name(ObjectType::Link).unwrap() on None"
    | none => .ok [.logError "LinkCreate not found"]
  | .LinkDestroy fromDesc toDesc =>
    match linkDestroyObjectId s fromDesc toDesc with
    | some object_id => .ok [.destroyGlobal object_id]
    | none => .ok [.logError "LinkDestroy not found"]
  | .OtherMsg => .ok []

/-- The drain loop body (`while let Ok(message) = pw_receiver.try_recv()`):
process the queued messages in FIFO order, each to completion, against the
single locked mirror snapshot. -/
def drainMessages (s : PipewireState) :
    List ChannelMessage → Except String (List Effect)
  | [] => .ok []
  | m :: rest =>
    match processMessage s m with
    | .ok es =>
      match drainMessages s rest with
      | .ok rest_es => .ok (es ++ rest_es)
      | .error e => .error e
    | .error e => .error e

/-- The whole timer callback: `state_.lock().unwrap()` on entry, drain, and
the guard drops when the callback returns. A panic unwinds while the guard
is still held. -/
def timerCallback (s : PipewireState) (msgs : List ChannelMessage) :
    Except String (List Effect) :=
  match drainMessages s msgs with
  | .ok es => .ok (Effect.lockAcquire :: es ++ [Effect.lockRelease])
  | .error e => .error e

/-- The effect trace of the timer callback, with a panic truncating the trace
while the guard is still held. -/
def timerTrace (s : PipewireState) (msgs : List ChannelMessage) :
    List Effect :=
  match timerCallback s msgs with
  | .ok es => es
  | .error _ => [Effect.lockAcquire]

/-- Is this effect a daemon call (`create_object` or `destroy_global`)? -/
def Effect.isDaemonCall : Effect → Bool
  | .createObject _ _ => true
  | .destroyGlobal _ => true
  | _ => false

/-- Mirror-guard depth after executing a prefix of the trace. -/
def lockDepth (tr : List Effect) : Nat :=
  (tr.count Effect.lockAcquire) - (tr.count Effect.lockRelease)

/-- The mirror guard is held at some point where a daemon call happens. -/
def heldDuringDaemonCall (tr : List Effect) : Prop :=
  ∃ i e, tr.get? i = some e ∧ e.isDaemonCall = true ∧
    0 < lockDepth (tr.take i)

instance (tr : List Effect) : Decidable (heldDuringDaemonCall tr) := by
  unfold heldDuringDaemonCall
  exact decidable_of_iff
    (∃ i : Fin tr.length, ∃ e, tr.get? i.1 = some e ∧ e.isDaemonCall = true ∧
      0 < lockDepth (tr.take i.1))
    (by
      constructor
      · rintro ⟨i, e, h⟩; exact ⟨i.1, e, h⟩
      · rintro ⟨i, e, h1, h2, h3⟩
        have hi : i < tr.length := by
          by_contra hge
          rw [List.get?_eq_none.mpr (le_of_not_lt hge)] at h1
          exact Option.noConfusion h1
        exact ⟨⟨i, hi⟩, e, h1, h2, h3⟩)

/-! ### The bridge thread as an event loop

The daemon main loop is single-threaded: registry notifications
(`.global` / `.global_remove` handlers, `pipewire_wrapper.rs:205-230`) and
timer fires are dispatched one at a time, never inside one another. The UI
enqueues commands on an mpsc channel, which delivers in FIFO order. A run of
the bridge thread is a sequence of such dispatches. -/

/-- One dispatch on the bridge thread. -/
inductive BridgeEvent where
  | enqueue (m : ChannelMessage)
  | notifyGlobal (obj : GlobalObject)
  | notifyGlobalRemove (id : Nat)
  | timerFire
deriving Repr

/-- Bridge-thread state: the mirror plus the pending command queue. -/
structure BridgeState where
  state : PipewireState
  queue : List ChannelMessage
deriving Repr

/-- The drain loop again, but logging which message produced which effects. -/
def drainLog (s : PipewireState) :
    List ChannelMessage → Except String (List (ChannelMessage × List Effect))
  | [] => .ok []
  | m :: rest =>
    match processMessage s m with
    | .ok es =>
      match drainLog s rest with
      | .ok log => .ok ((m, es) :: log)
      | .error e => .error e
    | .error e => .error e

/-- Dispatch one event on the bridge thread. `enqueue` appends to the channel
queue; the registry handlers update the mirror (`BTreeMap::insert` /
`BTreeMap::remove`); `timerFire` drains the whole queue. -/
def stepEvent (bs : BridgeState) :
    BridgeEvent → Except String (BridgeState × List (ChannelMessage × List Effect))
  | .enqueue m => .ok ({ bs with queue := bs.queue ++ [m] }, [])
  | .notifyGlobal obj =>
    .ok ({ bs with state := { bs.state with
            global_objects := btreeInsert bs.state.global_objects obj.id obj } }, [])
  | .notifyGlobalRemove id =>
    .ok ({ bs with state := { bs.state with
            global_objects := btreeRemove bs.state.global_objects id } }, [])
  | .timerFire =>
    match drainLog bs.state bs.queue with
    | .ok log => .ok ({ bs with queue := [] }, log)
    | .error e => .error e

/-- Run the bridge thread over a sequence of dispatches, collecting the log of
commands executed (in execution order, each with its complete effect list). -/
def runBridge (bs : BridgeState) :
    List BridgeEvent → Except String (BridgeState × List (ChannelMessage × List Effect))
  | [] => .ok (bs, [])
  | ev :: evs =>
    match stepEvent bs ev with
    | .ok (bs1, log1) =>
      match runBridge bs1 evs with
      | .ok (bs2, log2) => .ok (bs2, log1 ++ log2)
      | .error e => .error e
    | .error e => .error e

/-- The commands enqueued by the UI, in arrival order. -/
def enqueuedCommands : List BridgeEvent → List ChannelMessage
  | [] => []
  | .enqueue m :: evs => m :: enqueuedCommands evs
  | .notifyGlobal _ :: evs => enqueuedCommands evs
  | .notifyGlobalRemove _ :: evs => enqueuedCommands evs
  | .timerFire :: evs => enqueuedCommands evs

/-! ### Link state decoding (`LinkInfo::state`, `link.rs:172-187`) -/

/-- Raw `pw_link_state` values from the C enum bound by `pw_sys` (the
generated bindings are not in this tree; these are PipeWire's values, with
`Error = -2 … Active = 4`). Only their distinctness matters below. -/
def PW_LINK_STATE_ERROR : Int := -2

def PW_LINK_STATE_UNLINKED : Int := -1

def PW_LINK_STATE_INIT : Int := 0

def PW_LINK_STATE_NEGOTIATING : Int := 1

def PW_LINK_STATE_ALLOCATING : Int := 2

def PW_LINK_STATE_PAUSED : Int := 3

def PW_LINK_STATE_ACTIVE : Int := 4

/-- Enum `LinkState` from `link.rs`. -/
inductive LinkState where
  | Error (msg : String)
  | Unlinked
  | Init
  | Negotiating
  | Allocating
  | Paused
  | Active
deriving DecidableEq, Repr

/-- Outcome of `LinkInfo::state`: either a decoded variant or a Rust panic
(the `_ => panic!(...)` arm). -/
inductive DecodeResult where
  | ok (s : LinkState)
  | panicked (msg : String)
deriving DecidableEq, Repr

/-- Method `LinkInfo::state` (`link.rs:172-187`): match on the raw state value in
source order; the wildcard arm panics. `error` is the C error string read in
the `ERROR` arm. -/
def LinkInfo.state (raw : Int) (error : String) : DecodeResult :=
  if raw = PW_LINK_STATE_ERROR then .ok (.Error error)
  else if raw = PW_LINK_STATE_UNLINKED then .ok .Unlinked
  else if raw = PW_LINK_STATE_INIT then .ok .Init
  else if raw = PW_LINK_STATE_NEGOTIATING then .ok .Negotiating
  else if raw = PW_LINK_STATE_ALLOCATING then .ok .Allocating
  else if raw = PW_LINK_STATE_PAUSED then .ok .Paused
  else if raw = PW_LINK_STATE_ACTIVE then .ok .Active
  else .panicked ("Invalid link state: " ++ toString raw)

/-! ### Concrete mirrors used in witnesses and counterexamples -/

/-- Port 5, output side: `{"node.id":"2","port.direction":"out"}`. -/
def portOut5 : GlobalObject :=
  { id := 5, permissions := 7, type_ := ObjectType.Port, version := 3,
    props := some ⟨[(NODE_ID, "2"), (PORT_DIRECTION, "out")]⟩ }

/-- Port 9, input side: `{"node.id":"3","port.direction":"in"}`. -/
def portIn9 : GlobalObject :=
  { id := 9, permissions := 7, type_ := ObjectType.Port, version := 3,
    props := some ⟨[(NODE_ID, "3"), (PORT_DIRECTION, "in")]⟩ }

/-- A Factory advertising the Link type under the name "link-factory-0". -/
def linkFactory1 : GlobalObject :=
  { id := 1, permissions := 7, type_ := ObjectType.Factory, version := 3,
    props := some ⟨[(FACTORY_TYPE_NAME, "PipeWire:Interface:Link"),
                    (FACTORY_NAME, "link-factory-0")]⟩ }

/-- A Device-kind object that nevertheless carries a port-style property. -/
def deviceWithAlias3 : GlobalObject :=
  { id := 3, permissions := 7, type_ := ObjectType.Device, version := 3,
    props := some ⟨[("port.alias", "x")]⟩ }

/-- A genuine Port carrying the same `port.alias` as `deviceWithAlias3`,
with a larger id. -/
def portWithAlias8 : GlobalObject :=
  { id := 8, permissions := 7, type_ := ObjectType.Port, version := 3,
    props := some ⟨[("port.alias", "x"), (NODE_ID, "4")]⟩ }

/-- A Port-kind (not Link-kind) object whose props coincide with the four
wire link properties derived from ports 5 and 9. -/
def portLikeLink7 : GlobalObject :=
  { id := 7, permissions := 7, type_ := ObjectType.Port, version := 3,
    props := some ⟨[(LINK_OUTPUT_NODE, "2"), (LINK_OUTPUT_PORT, "5"),
                    (LINK_INPUT_NODE, "3"), (LINK_INPUT_PORT, "9")]⟩ }

/-- Mirror with the link factory and both ports. -/
def stFull : PipewireState :=
  { global_objects := [(1, linkFactory1), (5, portOut5), (9, portIn9)] }

/-- Mirror with both ports but no factory. -/
def stNoFactory : PipewireState :=
  { global_objects := [(5, portOut5), (9, portIn9)] }

/-- Mirror with both ports and a non-Link object carrying the four wire link
properties. -/
def stWithFakeLink : PipewireState :=
  { global_objects := [(1, linkFactory1), (5, portOut5), (7, portLikeLink7),
                       (9, portIn9)] }

/-- Mirror where a Device and a Port share the same `port.alias` value. -/
def stAlias : PipewireState :=
  { global_objects := [(3, deviceWithAlias3), (8, portWithAlias8)] }

/-- The output-port endpoint descriptor used in the examples. -/
def descOut : String × String := (PORT_DIRECTION, "out")

/-- The input-port endpoint descriptor used in the examples. -/
def descIn : String × String := (PORT_DIRECTION, "in")

/-! ### Helper lemmas about the mirror queries -/

/-- The `map_or(false, …)` test applied to an object inside
`find_object_by_props`. -/
def objMatches (f : Properties → Bool) (o : GlobalObject) : Bool :=
  match o.props with
  | some props => f props
  | none => false

/-- Function `find_object_by_props` on a raw association list. -/
def findValues (f : Properties → Bool) (m : List (Nat × GlobalObject)) :
    Option GlobalObject :=
  ((m.map Prod.snd).filter (objMatches f)).head?

theorem find_object_by_props_eq (s : PipewireState) (f : Properties → Bool) :
    s.find_object_by_props f = findValues f s.global_objects := rfl

theorem findValues_nil (f : Properties → Bool) : findValues f [] = none := rfl

theorem findValues_cons (f : Properties → Bool) (k : Nat) (o : GlobalObject)
    (m : List (Nat × GlobalObject)) :
    findValues f ((k, o) :: m) =
      if objMatches f o then some o else findValues f m := by
  by_cases h : objMatches f o <;>
    simp [findValues, List.filter_cons, h]

theorem findValues_eq_none_iff (f : Properties → Bool)
    (m : List (Nat × GlobalObject)) :
    findValues f m = none ↔ ∀ kv ∈ m, objMatches f kv.2 = false := by
  induction m with
  | nil => simp [findValues_nil]
  | cons kv rest ih =>
    rw [show kv = (kv.1, kv.2) from rfl, findValues_cons]
    by_cases h : objMatches f kv.2
    · simp [h]
    · rw [if_neg h, ih]
      constructor
      · intro hall kv' hkv'
        rcases List.mem_cons.mp hkv' with h1 | h1
        · rw [h1]; simpa using h
        · exact hall kv' h1
      · intro hall kv' hkv'
        exact hall kv' (List.mem_cons_of_mem _ hkv')

theorem findValues_min (f : Properties → Bool)
    (m : List (Nat × GlobalObject)) (o : GlobalObject)
    (hs : SortedKeys m) (h : findValues f m = some o) :
    ∃ k, (k, o) ∈ m ∧ objMatches f o = true ∧
      ∀ kv ∈ m, objMatches f kv.2 = true → k ≤ kv.1 := by
  induction m with
  | nil => simp [findValues_nil] at h
  | cons kv rest ih =>
    rw [show kv = (kv.1, kv.2) from rfl, findValues_cons] at h
    rw [SortedKeys, List.pairwise_cons] at hs
    by_cases hm : objMatches f kv.2
    · rw [if_pos hm] at h
      refine ⟨kv.1, by simp [← Option.some_inj.mp h], ?_, ?_⟩
      · rw [← Option.some_inj.mp h]; exact hm
      · intro kv' hkv' _
        rcases List.mem_cons.mp hkv' with h1 | h1
        · rw [h1]
        · exact le_of_lt (hs.1 kv' h1)
    · rw [if_neg hm] at h
      obtain ⟨k, hk, hko, hmin⟩ := ih hs.2 h
      refine ⟨k, List.mem_cons_of_mem _ hk, hko, ?_⟩
      intro kv' hkv' hm'
      rcases List.mem_cons.mp hkv' with h1 | h1
      · exact absurd (h1 ▸ hm') (by simpa using hm)
      · exact hmin kv' h1 hm'

theorem findValues_some (f : Properties → Bool)
    (m : List (Nat × GlobalObject)) (o : GlobalObject)
    (h : findValues f m = some o) :
    o ∈ m.map Prod.snd ∧ objMatches f o = true := by
  induction m with
  | nil => simp [findValues_nil] at h
  | cons kv rest ih =>
    rw [show kv = (kv.1, kv.2) from rfl, findValues_cons] at h
    by_cases hm : objMatches f kv.2
    · rw [if_pos hm] at h
      rcases Option.some_inj.mp h with rfl
      exact ⟨by simp, hm⟩
    · rw [if_neg hm] at h
      obtain ⟨h1, h2⟩ := ih h
      exact ⟨by simp [h1], h2⟩

/-- Pair membership is what the `iter().find(|&kv| kv == (k, v))` test in
`find_object_by_prop` checks. -/
theorem containsPair_iff (p : Properties) (k v : String) :
    ((p.entries.find? (fun kv => kv == (k, v))).isSome = true) ↔
      (k, v) ∈ p.entries := by
  rw [List.find?_isSome]
  constructor
  · rintro ⟨x, hx, he⟩
    have hxe : x = (k, v) := by simpa using he
    exact hxe ▸ hx
  · intro hx
    exact ⟨(k, v), hx, by simp⟩

theorem get_factory_name_eq (s : PipewireState) (t : ObjectType) :
    s.get_factory_name t =
      ((s.values.filter (fun object => object.type_ == ObjectType.Factory)).filterMap
        (factoryEntry t)).head? := rfl

theorem factoryEntry_eq_some (t : ObjectType) (o : GlobalObject) (name : String) :
    factoryEntry t o = some name ↔
      ∃ p, o.props = some p ∧ p.get FACTORY_TYPE_NAME = some t.to_str ∧
        p.get FACTORY_NAME = some name := by
  constructor
  · intro h
    rw [factoryEntry] at h
    split at h
    · exact Option.noConfusion h
    · rename_i p hp
      split at h
      · exact Option.noConfusion h
      · rename_i ftn hftn
        split at h
        · exact Option.noConfusion h
        · rename_i fn hfn
          split at h
          · rename_i hbeq
            injection h with h'
            subst h'
            refine ⟨p, hp, ?_, hfn⟩
            rw [hftn, beq_iff_eq.mp hbeq]
          · exact Option.noConfusion h
  · rintro ⟨p, hp, hftn, hfn⟩
    simp [factoryEntry, hp, hftn, hfn]

/-! ### Helper lemmas about the B-tree model -/

theorem btreeRemove_of_not_mem (m : List (Nat × GlobalObject)) (k : Nat)
    (h : ∀ kv ∈ m, kv.1 ≠ k) : btreeRemove m k = m := by
  induction m with
  | nil => rfl
  | cons kv rest ih =>
    rw [show kv = (kv.1, kv.2) from rfl, btreeRemove]
    rw [if_neg (fun he => h kv (by simp) he.symm)]
    rw [ih (fun kv' h' => h kv' (List.mem_cons_of_mem _ h'))]

theorem mem_btreeRemove (m : List (Nat × GlobalObject)) (k : Nat)
    (kv : Nat × GlobalObject) (hs : SortedKeys m)
    (h : kv ∈ btreeRemove m k) : kv ∈ m ∧ kv.1 ≠ k := by
  induction m with
  | nil => simp [btreeRemove] at h
  | cons kv' rest ih =>
    rw [SortedKeys, List.pairwise_cons] at hs
    rw [show kv' = (kv'.1, kv'.2) from rfl, btreeRemove] at h
    by_cases he : k = kv'.1
    · rw [if_pos he] at h
      refine ⟨List.mem_cons_of_mem _ h, ?_⟩
      intro hk
      exact absurd (hk ▸ he ▸ hs.1 kv h) (lt_irrefl _)
    · rw [if_neg he] at h
      rcases List.mem_cons.mp h with h1 | h1
      · exact ⟨by simp [h1], by rw [h1]; exact fun hk => he hk.symm⟩
      · obtain ⟨h2, h3⟩ := ih hs.2 h1
        exact ⟨List.mem_cons_of_mem _ h2, h3⟩

theorem btreeRemove_btreeInsert (m : List (Nat × GlobalObject)) (k : Nat)
    (v : GlobalObject) (hs : SortedKeys m) :
    btreeRemove (btreeInsert m k v) k = btreeRemove m k := by
  induction m with
  | nil => simp [btreeInsert, btreeRemove]
  | cons kv rest ih =>
    rw [SortedKeys, List.pairwise_cons] at hs
    rw [show kv = (kv.1, kv.2) from rfl, btreeInsert]
    by_cases h1 : k < kv.1
    · rw [if_pos h1, btreeRemove, if_pos rfl, btreeRemove,
        if_neg (fun he => absurd (he ▸ h1) (lt_irrefl _))]
      rw [btreeRemove_of_not_mem rest k
        (fun kv' h' hk => absurd (hk ▸ hs.1 kv' h') (fun hlt => absurd (lt_trans h1 hlt) (lt_irrefl _)))]
    · rw [if_neg h1]
      by_cases h2 : k = kv.1
      · rw [if_pos h2, btreeRemove, if_pos rfl, btreeRemove, if_pos h2]
      · rw [if_neg h2, btreeRemove, if_neg h2, btreeRemove, if_neg h2, ih hs.2]

/-! ### Helper lemmas about the drain loop and the bridge run -/

theorem processMessage_no_lock (s : PipewireState) (m : ChannelMessage)
    (es : List Effect) (h : processMessage s m = .ok es) :
    Effect.lockAcquire ∉ es ∧ Effect.lockRelease ∉ es := by
  cases m with
  | PipewireMainLoopStopRequest =>
    rw [processMessage] at h
    injection h with h'
    subst h'
    simp
  | LinkCreate f t =>
    rw [processMessage] at h
    split at h
    · split at h
      · injection h with h'; subst h'; simp
      · exact absurd h (by simp)
    · injection h with h'; subst h'; simp
  | LinkDestroy f t =>
    rw [processMessage] at h
    split at h
    · injection h with h'; subst h'; simp
    · injection h with h'; subst h'; simp
  | OtherMsg =>
    rw [processMessage] at h
    injection h with h'
    subst h'
    simp

theorem drainMessages_no_lock (s : PipewireState) (msgs : List ChannelMessage)
    (es : List Effect) (h : drainMessages s msgs = .ok es) :
    Effect.lockAcquire ∉ es ∧ Effect.lockRelease ∉ es := by
  induction msgs generalizing es with
  | nil =>
    rw [drainMessages] at h
    injection h with h'
    subst h'
    simp
  | cons m rest ih =>
    rw [drainMessages] at h
    split at h
    · split at h
      · injection h with h'
        subst h'
        rcases processMessage_no_lock s m _ (by assumption) with ⟨h1, h2⟩
        rcases ih _ (by assumption) with ⟨h3, h4⟩
        constructor
        · intro hmem
          rcases List.mem_append.mp hmem with hm | hm
          · exact h1 hm
          · exact h3 hm
        · intro hmem
          rcases List.mem_append.mp hmem with hm | hm
          · exact h2 hm
          · exact h4 hm
      · exact absurd h (by simp)
    · exact absurd h (by simp)

theorem drainLog_map_fst (s : PipewireState) (msgs : List ChannelMessage)
    (log : List (ChannelMessage × List Effect))
    (h : drainLog s msgs = .ok log) : log.map Prod.fst = msgs := by
  induction msgs generalizing log with
  | nil =>
    rw [drainLog] at h
    injection h with h'
    subst h'
    rfl
  | cons m rest ih =>
    rw [drainLog] at h
    split at h
    · split at h
      · injection h with h'
        subst h'
        simp [ih _ (by assumption)]
      · exact absurd h (by simp)
    · exact absurd h (by simp)

theorem lockDepth_pos_of_no_release (l : List Effect)
    (h : Effect.lockRelease ∉ l) :
    0 < lockDepth (Effect.lockAcquire :: l) := by
  rw [lockDepth, List.count_cons_self, List.count_cons_of_ne (by decide),
    List.count_eq_zero.mpr h]
  omega

/-! ### Claim theorems -/

/-- C7: in the mirror holding Port 5 `{"node.id":"2","port.direction":"out"}`
and Port 9 `{"node.id":"3","port.direction":"in"}`, resolving a CreateLink
from a descriptor matching port 5 to one matching port 9 yields
output-node=2, output-port=5 (the port object's own id), input-node=3,
input-port=9, plus the linger property. -/
theorem link_create_properties_example :
    linkCreateProperties stNoFactory descOut descIn =
      some ⟨[(LINK_OUTPUT_NODE, "2"), (LINK_OUTPUT_PORT, "5"),
             (LINK_INPUT_NODE, "3"), (LINK_INPUT_PORT, "9"),
             (OBJECT_LINGER, "1")]⟩ := rfl

/-- C2 counterexample: at the out-of-range raw value 5 the decoder panics
(`_ => panic!("Invalid link state: …")`), aborting the process instead of
returning a typed Protocol-violation result. -/
theorem link_state_panics_on_unknown_raw :
    LinkInfo.state 5 "e" = DecodeResult.panicked "Invalid link state: 5" := rfl

/-- C2 amended: `LinkInfo::state` decodes the seven known raw values to the
matching `LinkState` variants (never a silent default), but a raw value
outside that set makes the process panic with "Invalid link state" rather
than yielding a typed Protocol-violation result. -/
theorem link_state_decode (raw : Int) (err : String) :
    LinkInfo.state PW_LINK_STATE_ERROR err = .ok (.Error err) ∧
    LinkInfo.state PW_LINK_STATE_UNLINKED err = .ok .Unlinked ∧
    LinkInfo.state PW_LINK_STATE_INIT err = .ok .Init ∧
    LinkInfo.state PW_LINK_STATE_NEGOTIATING err = .ok .Negotiating ∧
    LinkInfo.state PW_LINK_STATE_ALLOCATING err = .ok .Allocating ∧
    LinkInfo.state PW_LINK_STATE_PAUSED err = .ok .Paused ∧
    LinkInfo.state PW_LINK_STATE_ACTIVE err = .ok .Active ∧
    (raw < PW_LINK_STATE_ERROR ∨ PW_LINK_STATE_ACTIVE < raw →
      LinkInfo.state raw err =
        .panicked ("Invalid link state: " ++ toString raw)) := by
  refine ⟨rfl, rfl, rfl, rfl, rfl, rfl, rfl, ?_⟩
  intro h
  have h' : raw < -2 ∨ 4 < raw := h
  simp only [LinkInfo.state, PW_LINK_STATE_ERROR, PW_LINK_STATE_UNLINKED,
    PW_LINK_STATE_INIT, PW_LINK_STATE_NEGOTIATING, PW_LINK_STATE_ALLOCATING,
    PW_LINK_STATE_PAUSED, PW_LINK_STATE_ACTIVE]
  rw [if_neg (by omega), if_neg (by omega), if_neg (by omega),
    if_neg (by omega), if_neg (by omega), if_neg (by omega),
    if_neg (by omega)]

/-- C2 witness: the amended theorem applied at raw value 5. -/
theorem link_state_decode_witness :
    ((5 : Int) < PW_LINK_STATE_ERROR ∨ PW_LINK_STATE_ACTIVE < (5 : Int)) ∧
    LinkInfo.state 5 "e" = .panicked "Invalid link state: 5" :=
  ⟨Or.inr (by decide), (link_state_decode 5 "e").2.2.2.2.2.2.2 (Or.inr (by decide))⟩

/-- C3 counterexample: with both endpoints resolving (ports 5 and 9 present)
but no Link factory in the mirror, the LinkCreate arm hits
`get_factory_name(...).unwrap()` on `None` and panics; it does not report
and discard. -/
theorem link_create_missing_factory_panics :
    linkCreateProperties stNoFactory descOut descIn =
      some ⟨[(LINK_OUTPUT_NODE, "2"), (LINK_OUTPUT_PORT, "5"),
             (LINK_INPUT_NODE, "3"), (LINK_INPUT_PORT, "9"),
             (OBJECT_LINGER, "1")]⟩ ∧
    stNoFactory.get_factory_name ObjectType.Link = none ∧
    processMessage stNoFactory (ChannelMessage.LinkCreate descOut descIn) =
      .error "get_factory_name(ObjectType::Link).unwrap() on None" :=
  ⟨rfl, rfl, rfl⟩

/-- C3 amended: for every CreateLink whose endpoints resolve, if no Link
factory name is present in the mirror the bridge panics (the `unwrap()` on
`None`); the report-and-discard path is taken only when endpoint resolution
itself fails. -/
theorem link_create_unwraps_missing_factory (s : PipewireState)
    (f t : String × String) (p : Properties)
    (h1 : linkCreateProperties s f t = some p)
    (h2 : s.get_factory_name ObjectType.Link = none) :
    processMessage s (.LinkCreate f t) =
      .error "get_factory_name(ObjectType::Link).unwrap() on None" := by
  simp only [processMessage, h1, h2]

/-- C3 witness: the amended theorem applied to the factory-less mirror. -/
theorem link_create_unwrap_witness :
    processMessage stNoFactory (ChannelMessage.LinkCreate descOut descIn) =
      .error "get_factory_name(ObjectType::Link).unwrap() on None" :=
  link_create_unwraps_missing_factory stNoFactory descOut descIn
    ⟨[(LINK_OUTPUT_NODE, "2"), (LINK_OUTPUT_PORT, "5"),
      (LINK_INPUT_NODE, "3"), (LINK_INPUT_PORT, "9"),
      (OBJECT_LINGER, "1")]⟩ rfl rfl

/-- C1 counterexample: processing a single successful LinkCreate in the
timer callback performs the `create_object` daemon call while the mirror's
guard (taken once at the top of the callback) is still held. -/
theorem guard_held_during_daemon_call_example :
    heldDuringDaemonCall
      (timerTrace stFull [ChannelMessage.LinkCreate descOut descIn]) := by
  decide

/-- C1 amended: the timer callback acquires the mirror's guard once on entry
and holds it for the whole drain, so every daemon call (`create_object` or
`destroy_global`) it makes happens while the guard is held; the guard is not
released around individual reads or writes. -/
theorem timer_daemon_calls_under_guard (s : PipewireState)
    (msgs : List ChannelMessage) (i : Nat) (e : Effect)
    (h1 : (timerTrace s msgs).get? i = some e)
    (h2 : e.isDaemonCall = true) :
    0 < lockDepth ((timerTrace s msgs).take i) := by
  rw [timerTrace] at h1 ⊢
  cases htc : timerCallback s msgs with
  | error msg =>
    rw [htc] at h1
    dsimp only at h1 ⊢
    cases i with
    | zero =>
      injection h1 with h'
      rw [← h'] at h2
      exact absurd h2 (by decide)
    | succ j => simp at h1
  | ok tr =>
    rw [htc] at h1
    dsimp only at h1 ⊢
    rw [timerCallback] at htc
    split at htc
    · rename_i es hes
      injection htc with h'
      subst h'
      cases i with
      | zero =>
        injection h1 with h'
        rw [← h'] at h2
        exact absurd h2 (by decide)
      | succ j =>
        have h1' : (es ++ [Effect.lockRelease]).get? j = some e := h1
        show 0 < lockDepth
          (Effect.lockAcquire :: List.take j (es ++ [Effect.lockRelease]))
        by_cases hj : j < es.length
        · rw [List.take_append_eq_append_take,
            Nat.sub_eq_zero_of_le (le_of_lt hj), List.take_zero,
            List.append_nil]
          apply lockDepth_pos_of_no_release
          intro hmem
          exact (drainMessages_no_lock s msgs es hes).2
            (List.take_subset j es hmem)
        · obtain ⟨hlt, -⟩ := List.get?_eq_some.mp h1'
          have hlen : j < es.length + 1 := by simpa using hlt
          have hje : j = es.length := by omega
          subst hje
          rw [List.get?_concat_length] at h1'
          injection h1' with h'
          rw [← h'] at h2
          exact absurd h2 (by decide)
    · exact absurd htc (by simp)

/-- C1 witness: the amended theorem applied to the trace of one successful
LinkCreate, whose daemon call sits at index 1, after the guard acquisition. -/
theorem timer_guard_witness :
    (timerTrace stFull [ChannelMessage.LinkCreate descOut descIn]).get? 1 =
      some (Effect.createObject "link-factory-0"
        ⟨[(LINK_OUTPUT_NODE, "2"), (LINK_OUTPUT_PORT, "5"),
          (LINK_INPUT_NODE, "3"), (LINK_INPUT_PORT, "9"),
          (OBJECT_LINGER, "1")]⟩) ∧
    0 < lockDepth
      ((timerTrace stFull [ChannelMessage.LinkCreate descOut descIn]).take 1) :=
  ⟨rfl, timer_daemon_calls_under_guard stFull _ 1 _ rfl rfl⟩

/-- C4 counterexample: in a mirror where a Device-kind object (id 3) and a
Port-kind object (id 8) both carry `("port.alias","x")`, endpoint resolution
returns the Device, not the Port: non-Port objects are considered and can be
the resolved endpoint. -/
theorem endpoint_resolution_returns_non_port :
    PipewireState.find_object_by_prop stAlias "port.alias" "x" =
      some deviceWithAlias3 ∧
    deviceWithAlias3.type_ ≠ ObjectType.Port ∧
    portWithAlias8.type_ = ObjectType.Port ∧
    (8, portWithAlias8) ∈ stAlias.global_objects := by
  refine ⟨rfl, by decide, rfl, by decide⟩

/-- C4 amended: endpoint resolution scans objects of every kind: it returns
the properties-bearing object with the smallest id whose properties contain
the key/value pair, with no restriction to Port-kind objects. -/
theorem find_object_by_prop_first_match (s : PipewireState) (k v : String)
    (o : GlobalObject) (hs : SortedKeys s.global_objects)
    (h : s.find_object_by_prop k v = some o) :
    ∃ key p, (key, o) ∈ s.global_objects ∧ o.props = some p ∧
      (k, v) ∈ p.entries ∧
      ∀ kv ∈ s.global_objects, ∀ q, kv.2.props = some q →
        (k, v) ∈ q.entries → key ≤ kv.1 := by
  rw [PipewireState.find_object_by_prop, find_object_by_props_eq] at h
  obtain ⟨key, hmem, hmatch, hmin⟩ := findValues_min _ _ _ hs h
  rw [objMatches] at hmatch
  rcases ho : o.props with _ | p
  · rw [ho] at hmatch
    dsimp only at hmatch
    exact Bool.noConfusion hmatch
  · rw [ho] at hmatch
    dsimp only at hmatch
    refine ⟨key, p, hmem, rfl, (containsPair_iff p k v).mp hmatch, ?_⟩
    intro kv hkv q hq hqmem
    refine hmin kv hkv ?_
    rw [objMatches, hq]
    exact (containsPair_iff q k v).mpr hqmem

/-- C4 witness: the amended theorem applied to the Device/Port alias mirror;
the smallest matching id is the Device's. -/
theorem find_object_by_prop_first_match_witness :
    SortedKeys stAlias.global_objects ∧
    PipewireState.find_object_by_prop stAlias "port.alias" "x" =
      some deviceWithAlias3 ∧
    ∃ key p, (key, deviceWithAlias3) ∈ stAlias.global_objects ∧
      deviceWithAlias3.props = some p ∧ ("port.alias", "x") ∈ p.entries ∧
      ∀ kv ∈ stAlias.global_objects, ∀ q, kv.2.props = some q →
        ("port.alias", "x") ∈ q.entries → key ≤ kv.1 :=
  ⟨by decide, rfl,
    find_object_by_prop_first_match stAlias "port.alias" "x" deviceWithAlias3
      (by decide) rfl⟩

/-- C5 counterexample: the LinkDestroy arm destroys the first object whose
props carry the four derived wire values even though it is not a Link-kind
object (here id 7, a Port-kind object). -/
theorem link_destroy_destroys_non_link :
    processMessage stWithFakeLink (ChannelMessage.LinkDestroy descOut descIn) =
      .ok [Effect.destroyGlobal 7] ∧
    (7, portLikeLink7) ∈ stWithFakeLink.global_objects ∧
    portLikeLink7.type_ ≠ ObjectType.Link := by
  refine ⟨rfl, by decide, by decide⟩

/-- C5 amended: for every DestroyLink whose endpoints resolve, the bridge
issues a remote destroy-by-id call only for a mirror object (of any kind)
whose properties match all four derived values exactly; an object matching
fewer than all four is never chosen, and if no object matches, the bridge
logs "LinkDestroy not found" and issues no destroy call. -/
theorem link_destroy_exact_match (s : PipewireState) (f t : String × String) :
    (∀ oid, linkDestroyObjectId s f t = some oid →
      processMessage s (.LinkDestroy f t) = .ok [.destroyGlobal oid] ∧
      ∃ o_from o_to pf pt onode inode o p,
        s.find_object_by_prop f.1 f.2 = some o_from ∧
        s.find_object_by_prop t.1 t.2 = some o_to ∧
        o_from.props = some pf ∧ o_to.props = some pt ∧
        pf.get NODE_ID = some onode ∧ pt.get NODE_ID = some inode ∧
        o ∈ s.values ∧ o.id = oid ∧ o.props = some p ∧
        p.get LINK_OUTPUT_NODE = some onode ∧
        p.get LINK_OUTPUT_PORT = some (toString o_from.id) ∧
        p.get LINK_INPUT_NODE = some inode ∧
        p.get LINK_INPUT_PORT = some (toString o_to.id)) ∧
    (linkDestroyObjectId s f t = none →
      processMessage s (.LinkDestroy f t) =
        .ok [.logError "LinkDestroy not found"]) := by
  constructor
  · intro oid h
    refine ⟨by simp only [processMessage, h], ?_⟩
    rw [linkDestroyObjectId] at h
    simp only [bind, Option.bind_eq_some] at h
    obtain ⟨o_from, h1, o_to, h2, pf, h3, pt, h4, onode, h5, inode, h6, o, h7, hid⟩ := h
    obtain ⟨homem, homatch⟩ := findValues_some _ _ _ (by rw [← find_object_by_props_eq]; exact h7)
    rw [objMatches] at homatch
    rcases hp : o.props with _ | p
    · rw [hp] at homatch
      dsimp only at homatch
      exact Bool.noConfusion homatch
    · rw [hp] at homatch
      dsimp only at homatch
      simp only [Bool.and_eq_true, beq_iff_eq] at homatch
      obtain ⟨⟨⟨m1, m2⟩, m3⟩, m4⟩ := homatch
      injection hid with hid'
      exact ⟨o_from, o_to, pf, pt, onode, inode, o, p, h1, h2, h3, h4, h5, h6,
        homem, hid', hp, m1, m2, m3, m4⟩
  · intro h
    simp only [processMessage, h]

/-- C5 witness: the amended theorem applied to the fake-link mirror, where
the exact four-tuple match is object 7. -/
theorem link_destroy_exact_match_witness :
    linkDestroyObjectId stWithFakeLink descOut descIn = some 7 ∧
    (processMessage stWithFakeLink (ChannelMessage.LinkDestroy descOut descIn) =
        .ok [.destroyGlobal 7] ∧
      ∃ o_from o_to pf pt onode inode o p,
        PipewireState.find_object_by_prop stWithFakeLink descOut.1 descOut.2 =
          some o_from ∧
        PipewireState.find_object_by_prop stWithFakeLink descIn.1 descIn.2 =
          some o_to ∧
        o_from.props = some pf ∧ o_to.props = some pt ∧
        pf.get NODE_ID = some onode ∧ pt.get NODE_ID = some inode ∧
        o ∈ stWithFakeLink.values ∧ o.id = 7 ∧ o.props = some p ∧
        p.get LINK_OUTPUT_NODE = some onode ∧
        p.get LINK_OUTPUT_PORT = some (toString o_from.id) ∧
        p.get LINK_INPUT_NODE = some inode ∧
        p.get LINK_INPUT_PORT = some (toString o_to.id)) :=
  ⟨rfl, (link_destroy_exact_match stWithFakeLink descOut descIn).1 7 rfl⟩

/-- C6: over any sequence of bridge-thread dispatches (UI enqueues, registry
notifications, timer fires), the commands the drain loop executes — in
execution order, each run to completion with its own complete effect list —
followed by the still-pending queue, equal the initial queue plus the
commands in UI arrival order: commands execute in FIFO arrival order
regardless of interleaved notifications. -/
theorem commands_fifo (bs : BridgeState) (evs : List BridgeEvent)
    (bs' : BridgeState) (log : List (ChannelMessage × List Effect))
    (h : runBridge bs evs = .ok (bs', log)) :
    log.map Prod.fst ++ bs'.queue = bs.queue ++ enqueuedCommands evs := by
  induction evs generalizing bs bs' log with
  | nil =>
    rw [runBridge] at h
    injection h with h'
    injection h' with h1 h2
    subst h1
    subst h2
    simp [enqueuedCommands]
  | cons ev evs ih =>
    rw [runBridge] at h
    cases hse : stepEvent bs ev with
    | error e =>
      rw [hse] at h
      exact Except.noConfusion h
    | ok pair1 =>
      obtain ⟨bs1, log1⟩ := pair1
      rw [hse] at h
      dsimp only at h
      cases hrb : runBridge bs1 evs with
      | error e =>
        rw [hrb] at h
        exact Except.noConfusion h
      | ok pair2 =>
        obtain ⟨bs2, log2⟩ := pair2
        rw [hrb] at h
        dsimp only at h
        injection h with h'
        injection h' with h1 h2
        subst h1
        subst h2
        have ihe := ih _ _ _ hrb
        cases ev with
        | enqueue m =>
          rw [stepEvent] at hse
          injection hse with hse'
          injection hse' with hb hl
          subst hb
          subst hl
          rw [enqueuedCommands]
          dsimp only at ihe
          simp only [List.nil_append, ihe, List.append_assoc,
            List.singleton_append]
        | notifyGlobal obj =>
          rw [stepEvent] at hse
          injection hse with hse'
          injection hse' with hb hl
          subst hb
          subst hl
          rw [enqueuedCommands]
          simpa using ihe
        | notifyGlobalRemove oid =>
          rw [stepEvent] at hse
          injection hse with hse'
          injection hse' with hb hl
          subst hb
          subst hl
          rw [enqueuedCommands]
          simpa using ihe
        | timerFire =>
          rw [stepEvent] at hse
          cases hdl : drainLog bs.state bs.queue with
          | error e =>
            rw [hdl] at hse
            exact Except.noConfusion hse
          | ok dlog =>
            rw [hdl] at hse
            dsimp only at hse
            injection hse with hse'
            injection hse' with hb hl
            subst hb
            subst hl
            rw [enqueuedCommands]
            dsimp only at ihe
            rw [List.map_append, List.append_assoc, ihe, List.nil_append,
              drainLog_map_fst bs.state bs.queue _ hdl]

/-- C6 witness: two commands enqueued around an interleaved notification are
drained by a later timer fire in arrival order, each to completion. -/
theorem commands_fifo_witness :
    runBridge ⟨{}, []⟩
      [BridgeEvent.enqueue (ChannelMessage.LinkDestroy ("a", "b") ("c", "d")),
       BridgeEvent.notifyGlobal linkFactory1,
       BridgeEvent.enqueue (ChannelMessage.LinkDestroy ("e", "f") ("g", "h")),
       BridgeEvent.timerFire] =
      .ok (⟨{ global_objects := [(1, linkFactory1)] }, []⟩,
        [(ChannelMessage.LinkDestroy ("a", "b") ("c", "d"),
          [Effect.logError "LinkDestroy not found"]),
         (ChannelMessage.LinkDestroy ("e", "f") ("g", "h"),
          [Effect.logError "LinkDestroy not found"])]) ∧
    [(ChannelMessage.LinkDestroy ("a", "b") ("c", "d"),
      [Effect.logError "LinkDestroy not found"]),
     (ChannelMessage.LinkDestroy ("e", "f") ("g", "h"),
      [Effect.logError "LinkDestroy not found"])].map Prod.fst ++
      ([] : List ChannelMessage) =
      ([] : List ChannelMessage) ++ enqueuedCommands
        [BridgeEvent.enqueue (ChannelMessage.LinkDestroy ("a", "b") ("c", "d")),
         BridgeEvent.notifyGlobal linkFactory1,
         BridgeEvent.enqueue (ChannelMessage.LinkDestroy ("e", "f") ("g", "h")),
         BridgeEvent.timerFire] :=
  ⟨rfl,
   commands_fifo ⟨{}, []⟩
     [BridgeEvent.enqueue (ChannelMessage.LinkDestroy ("a", "b") ("c", "d")),
      BridgeEvent.notifyGlobal linkFactory1,
      BridgeEvent.enqueue (ChannelMessage.LinkDestroy ("e", "f") ("g", "h")),
      BridgeEvent.timerFire]
     ⟨{ global_objects := [(1, linkFactory1)] }, []⟩
     [(ChannelMessage.LinkDestroy ("a", "b") ("c", "d"),
       [Effect.logError "LinkDestroy not found"]),
      (ChannelMessage.LinkDestroy ("e", "f") ("g", "h"),
       [Effect.logError "LinkDestroy not found"])] rfl⟩

/-- C8: whenever `get_factory_name` returns a name, the mirror holds a
Factory-kind object whose declared produced-type equals the target kind's
protocol type identifier and whose advertised name is the returned one; and
when no Factory with a matching declared type is present, it returns
nothing. -/
theorem get_factory_name_spec (s : PipewireState) (t : ObjectType) :
    (∀ name, s.get_factory_name t = some name →
      ∃ k o p, (k, o) ∈ s.global_objects ∧ o.type_ = ObjectType.Factory ∧
        o.props = some p ∧ p.get FACTORY_TYPE_NAME = some t.to_str ∧
        p.get FACTORY_NAME = some name) ∧
    ((∀ kv ∈ s.global_objects, kv.2.type_ = ObjectType.Factory →
        ∀ p, kv.2.props = some p → p.get FACTORY_TYPE_NAME ≠ some t.to_str) →
      s.get_factory_name t = none) := by
  constructor
  · intro name h
    rw [PipewireState.get_factory_name] at h
    obtain ⟨rest, hrest⟩ := List.head?_eq_some_iff.mp h
    have hmem : name ∈ (s.values.filter
        (fun object => object.type_ == ObjectType.Factory)).filterMap
        (factoryEntry t) := by
      rw [hrest]
      exact List.mem_cons_self _ _
    rcases List.mem_filterMap.mp hmem with ⟨o, homem, hfe⟩
    rcases List.mem_filter.mp homem with ⟨hov, hot⟩
    rcases (factoryEntry_eq_some t o name).mp hfe with ⟨p, hp, hftn, hfn⟩
    rcases List.mem_map.mp hov with ⟨kv, hkv, hsnd⟩
    refine ⟨kv.1, o, p, ?_, beq_iff_eq.mp hot, hp, hftn, hfn⟩
    rw [← hsnd]
    simpa using hkv
  · intro hnone
    rw [PipewireState.get_factory_name, List.head?_eq_none_iff]
    apply List.filterMap_eq_nil_iff.mpr
    intro o homem
    rcases List.mem_filter.mp homem with ⟨hov, hot⟩
    apply Option.eq_none_iff_forall_not_mem.mpr
    intro name hname
    rcases (factoryEntry_eq_some t o name).mp (Option.mem_def.mp hname)
      with ⟨p, hp, hftn, hfn⟩
    rcases List.mem_map.mp hov with ⟨kv, hkv, hsnd⟩
    exact hnone kv hkv (by rw [hsnd]; exact beq_iff_eq.mp hot) p
      (by rw [hsnd]; exact hp) hftn

/-- C8 witness: the mirror with the "link-factory-0" Factory yields that
name for the Link kind, and the factory-less mirror yields nothing. -/
theorem get_factory_name_witness :
    stFull.get_factory_name ObjectType.Link = some "link-factory-0" ∧
    (∃ k o p, (k, o) ∈ stFull.global_objects ∧ o.type_ = ObjectType.Factory ∧
      o.props = some p ∧
      p.get FACTORY_TYPE_NAME = some (ObjectType.to_str ObjectType.Link) ∧
      p.get FACTORY_NAME = some "link-factory-0") ∧
    stNoFactory.get_factory_name ObjectType.Link = none :=
  ⟨rfl,
   (get_factory_name_spec stFull ObjectType.Link).1 "link-factory-0" rfl,
   (get_factory_name_spec stNoFactory ObjectType.Link).2 (by decide)⟩

/-- C9: upsert(id, obj) then remove(id) leaves no object matching a
predicate that only the object at `id` matched, so `find_by_property`
returns nothing; and remove of an absent id is a no-op on the mirror. -/
theorem upsert_remove_find_none (s : PipewireState) (id : Nat)
    (obj : GlobalObject) (f : Properties → Bool)
    (hs : SortedKeys s.global_objects) :
    ((∀ kv ∈ s.global_objects, kv.1 ≠ id → objMatches f kv.2 = false) →
      PipewireState.find_object_by_props
        { s with
          global_objects := btreeRemove (btreeInsert s.global_objects id obj) id }
        f = none) ∧
    ((∀ kv ∈ s.global_objects, kv.1 ≠ id) →
      btreeRemove s.global_objects id = s.global_objects) := by
  constructor
  · intro honly
    rw [find_object_by_props_eq]
    dsimp only
    rw [btreeRemove_btreeInsert s.global_objects id obj hs,
      findValues_eq_none_iff]
    intro kv hkv
    obtain ⟨hmem, hne⟩ := mem_btreeRemove s.global_objects id kv hs hkv
    exact honly kv hmem hne
  · intro habs
    exact btreeRemove_of_not_mem s.global_objects id habs

/-- C9 witness: inserting object 7 into the two-port mirror, removing id 7
again, and searching for its distinctive property finds nothing; removing
the absent id 7 from the original mirror is a no-op. -/
theorem upsert_remove_witness :
    SortedKeys stNoFactory.global_objects ∧
    PipewireState.find_object_by_props
      { stNoFactory with
        global_objects := btreeRemove (btreeInsert stNoFactory.global_objects 7 portLikeLink7) 7 }
      (fun p =>
        (p.entries.find? (fun kv => kv == (LINK_OUTPUT_PORT, "5"))).isSome) =
      none ∧
    btreeRemove stNoFactory.global_objects 7 = stNoFactory.global_objects :=
  ⟨by decide,
   (upsert_remove_find_none stNoFactory 7 portLikeLink7 _ (by decide)).1
     (by decide),
   (upsert_remove_find_none stNoFactory 7 portLikeLink7
     (fun p =>
       (p.entries.find? (fun kv => kv == (LINK_OUTPUT_PORT, "5"))).isSome)
     (by decide)).2 (by decide)⟩

/-- C10: when more than one object satisfies a find predicate, the lookup
returns the matching object stored at the smallest id: the mirror is an
ordered map iterated in ascending id order and the first match is taken, so
resolution is a deterministic function of the mirror contents. -/
theorem find_object_by_props_min (s : PipewireState) (f : Properties → Bool)
    (o : GlobalObject) (hs : SortedKeys s.global_objects)
    (h : s.find_object_by_props f = some o) :
    ∃ k, (k, o) ∈ s.global_objects ∧ objMatches f o = true ∧
      ∀ kv ∈ s.global_objects, objMatches f kv.2 = true → k ≤ kv.1 := by
  rw [find_object_by_props_eq] at h
  exact findValues_min f s.global_objects o hs h

/-- C10 witness: in the mirror where objects 3 and 8 both match the alias
predicate, the lookup returns the object at the smaller id 3. -/
theorem find_object_by_props_min_witness :
    SortedKeys stAlias.global_objects ∧
    PipewireState.find_object_by_props stAlias
      (fun p => (p.entries.find? (fun kv => kv == ("port.alias", "x"))).isSome) =
      some deviceWithAlias3 ∧
    ∃ k, (k, deviceWithAlias3) ∈ stAlias.global_objects ∧
      objMatches
        (fun p => (p.entries.find? (fun kv => kv == ("port.alias", "x"))).isSome)
        deviceWithAlias3 = true ∧
      ∀ kv ∈ stAlias.global_objects,
        objMatches
          (fun p =>
            (p.entries.find? (fun kv => kv == ("port.alias", "x"))).isSome)
          kv.2 = true → k ≤ kv.1 :=
  ⟨by decide, rfl,
   find_object_by_props_min stAlias _ deviceWithAlias3 (by decide) rfl⟩

end PwGraph
